import Mathlib

/-!
Shallow embedding of the offer registry from `packages/protocol/src/offer.rs`
and the guard functions from `packages/protocol/src/guards.rs`.

Machine integers (`u64`, `Uint128`) are modelled as `Nat`: the embedded code
performs no wrapping arithmetic, only comparisons, the lossless
`u64 -> Uint128` widening of `update`, and the big-endian byte encoding of
`u64` keys, written out with explicit `/ 2 ^ k % 256` byte extraction.
`cosmwasm_std::Addr` is a wrapped string and is modelled as `String`.
A fallible store write (`StdResult<()>`) is `Except String`; a Rust panic is
the `none` value of an `Option` result.
-/

/-- Modelled from the spec: `fiat_currency` is an "enumerated currency code"
(`src/packages/protocol/src/currencies.rs` is not part of the excerpt).
The registry only ever compares currencies for equality, so any enumeration
with decidable equality is a faithful model. -/
inductive FiatCurrency where
  | USD
  | EUR
  | COP
  deriving DecidableEq, Repr

/-- `offer.rs` lines 208-212: `OfferType`. -/
inductive OfferType where
  | Buy
  | Sell
  deriving DecidableEq, Repr

/-- `offer.rs` lines 219-224: `OfferState`. -/
inductive OfferState where
  | Active
  | Paused
  deriving DecidableEq, Repr

/-- `cosmwasm_std::Addr`, a wrapped human-readable address string. -/
abbrev Addr := String

/-- Modelled from the spec: §7 lists the error kinds `Unauthorized{owner,
caller}`, `InvalidStateChange{from, to}` and a generic storage/validation
error (the `Std` wrapper used by `guards.rs`);
`src/packages/protocol/src/errors.rs` is not part of the excerpt. -/
inductive OfferError where
  | Unauthorized (owner caller : Addr)
  | InvalidStateChange (fromState toState : OfferState)
  | Std (msg : String)
  deriving DecidableEq, Repr

/-- `offer.rs` lines 81-90: the `Offer` record.  `min_amount`/`max_amount`
are `Uint128` in the source, `id` is `u64`. -/
structure Offer where
  id : Nat
  owner : Addr
  offer_type : OfferType
  fiat_currency : FiatCurrency
  min_amount : Nat
  max_amount : Nat
  state : OfferState
  deriving DecidableEq, Repr

/-- `offer.rs` lines 18-24: the `OfferMsg` input record (`u64` amounts). -/
structure OfferMsg where
  offer_type : OfferType
  fiat_currency : FiatCurrency
  min_amount : Nat
  max_amount : Nat
  deriving DecidableEq, Repr

/-- `guards.rs` lines 4-10: succeeds iff `caller == owner`, otherwise
`Unauthorized { owner, caller }`. -/
def assert_ownership (caller owner : Addr) : Except OfferError Unit :=
  if caller = owner then Except.ok ()
  else Except.error (OfferError.Unauthorized owner caller)

/-- `guards.rs` lines 12-20: errors when `min >= max`, succeeds otherwise. -/
def assert_min_g_max (min max : Nat) : Except OfferError Unit :=
  if min ≥ max then
    Except.error (OfferError.Std "Min amount must be greater than Max amount.")
  else Except.ok ()

/-- Big-endian byte encoding of a `u64` key: `id.to_be_bytes()` in
`offer.rs` (lines 99, 104). -/
def to_be_bytes (n : Nat) : List Nat :=
  [n / 2 ^ 56 % 256, n / 2 ^ 48 % 256, n / 2 ^ 40 % 256, n / 2 ^ 32 % 256,
   n / 2 ^ 24 % 256, n / 2 ^ 16 % 256, n / 2 ^ 8 % 256, n % 256]

/-- Strict lexicographic order on raw byte keys: the iteration order of the
host key-value store, and the meaning of `Bound::Exclusive` in
`offer.rs` line 188. -/
def lexLtB : List Nat → List Nat → Bool
  | [], [] => false
  | [], _ :: _ => true
  | _ :: _, [] => false
  | x :: xs, y :: ys => decide (x < y) || (decide (x = y) && lexLtB xs ys)

/-- The `OFFERS` map (`offer.rs` line 12, namespace `OFFERS_KEY`) of the
host's ordered key-value store.  `entries` is kept in strictly ascending
raw-key order, the order `range(.., Order::Ascending)` yields.  The host's
contract allows a write to fail (`Map::save` returns `StdResult`);
`failWrites` injects that failure. -/
structure Storage where
  entries : List (List Nat × Offer)
  failWrites : Bool
  deriving DecidableEq, Repr

/-- Sorted insert-or-overwrite: the effect of `Map::save` on the ordered
entry list. -/
def insertEntry (k : List Nat) (o : Offer) :
    List (List Nat × Offer) → List (List Nat × Offer)
  | [] => [(k, o)]
  | kv :: rest =>
    if lexLtB k kv.1 then (k, o) :: kv :: rest
    else if k = kv.1 then (k, o) :: rest
    else kv :: insertEntry k o rest

/-- `offer.rs` lines 92-95: the entity bundled with its store handle. -/
structure OfferModel where
  offer : Offer
  storage : Storage
  deriving DecidableEq, Repr

namespace OfferModel

/-- `offer.rs` lines 98-100: `OFFERS.save(storage, &offer.id.to_be_bytes(), &offer)`. -/
def store (st : Storage) (o : Offer) : Except String Storage :=
  if st.failWrites then Except.error "storage failure"
  else Except.ok { st with entries := insertEntry (to_be_bytes o.id) o st.entries }

/-- A discarding call `OfferModel::store(storage, &offer);` as written in
`create`, `activate`, `pause` and `update`: the `StdResult` is dropped, so a
failed write leaves the store unchanged and is not observable by the caller. -/
def storeDiscard (st : Storage) (o : Offer) : Storage :=
  match store st o with
  | Except.ok st2 => st2
  | Except.error _ => st

/-- `offer.rs` lines 102-107: by-id lookup
`OFFERS.may_load(storage, &id.to_be_bytes()).unwrap_or_default().unwrap()`.
`may_load` yields `Ok (some o)` when the key is present and `Ok none` when it
is absent; `unwrap_or_default` (default of `Option<Offer>` is `None`) keeps
`none`, and the final `.unwrap()` panics on `none`.  The `none` value of this
model is exactly that panic: the source function has no error return. -/
def fetch (st : Storage) (id : Nat) : Option Offer :=
  (st.entries.find? fun kv => decide (kv.1 = to_be_bytes id)).map (fun kv => kv.2)

/-- `offer.rs` lines 109-112: stores (discarding the write result) and
returns the model; the signature has no error channel. -/
def create (st : Storage) (o : Offer) : OfferModel :=
  { offer := o, storage := storeDiscard st o }

/-- `offer.rs` lines 127-139: `Paused -> Active`, persisting (write result
discarded); from `Active` fails with `InvalidStateChange{from: state, to: Active}`. -/
def activate (m : OfferModel) : Except OfferError Offer × OfferModel :=
  match m.offer.state with
  | OfferState.Paused =>
      let o := { m.offer with state := OfferState.Active }
      (Except.ok o, { offer := o, storage := storeDiscard m.storage o })
  | OfferState.Active =>
      (Except.error (OfferError.InvalidStateChange m.offer.state OfferState.Active), m)

/-- `offer.rs` lines 141-153: `Active -> Paused`, persisting (write result
discarded); from `Paused` fails with `InvalidStateChange{from: state, to: Paused}`. -/
def pause (m : OfferModel) : Except OfferError Offer × OfferModel :=
  match m.offer.state with
  | OfferState.Active =>
      let o := { m.offer with state := OfferState.Paused }
      (Except.ok o, { offer := o, storage := storeDiscard m.storage o })
  | OfferState.Paused =>
      (Except.error (OfferError.InvalidStateChange m.offer.state OfferState.Paused), m)

/-- `offer.rs` lines 155-164: overwrites the four message fields
(`Uint128::from` on the amounts is lossless widening), persists (write result
discarded), returns the offer. -/
def update (m : OfferModel) (msg : OfferMsg) : Offer × OfferModel :=
  let o := { m.offer with
    offer_type := msg.offer_type,
    fiat_currency := msg.fiat_currency,
    min_amount := msg.min_amount,
    max_amount := msg.max_amount }
  (o, { offer := o, storage := storeDiscard m.storage o })

/-- `offer.rs` lines 166-177: full ascending scan, then currency filter. -/
def query_all_offers (st : Storage) (fc : FiatCurrency) : List Offer :=
  (st.entries.map (fun kv => kv.2)).filter (fun o => decide (o.fiat_currency = fc))

/-- `offer.rs` lines 179-198: paged query — ascending scan strictly after the
raw cursor `last_value`, `take limit` raw entries, then currency filter.
Named `fetch` in the source as well (overloaded by arity). -/
def fetch_paged (st : Storage) (fc : FiatCurrency) (last_value : List Nat)
    (limit : Nat) : List Offer :=
  (((st.entries.filter (fun kv => lexLtB last_value kv.1)).take limit).map
      (fun kv => kv.2)).filter (fun o => decide (o.fiat_currency = fc))

end OfferModel

/-- Well-formed store states — the states reachable by `OfferModel.store`
alone: entries strictly ascending in raw-key order, each keyed by the
big-endian bytes of the stored offer's `u64` id. -/
def Storage.WF (st : Storage) : Prop :=
  st.entries.Pairwise (fun a b => lexLtB a.1 b.1 = true) ∧
  ∀ kv ∈ st.entries, kv.1 = to_be_bytes kv.2.id ∧ kv.2.id < 2 ^ 64

/-- C4: `assert_min_g_max min max` succeeds exactly when `min < max`, and for
`min ≥ max` it returns the validation error. -/
theorem assert_min_g_max_spec (min max : Nat) :
    (assert_min_g_max min max = Except.ok () ↔ min < max) ∧
    (min ≥ max →
      assert_min_g_max min max =
        Except.error (OfferError.Std "Min amount must be greater than Max amount.")) := by
  constructor
  · constructor
    · intro h
      by_contra hlt
      simp [assert_min_g_max, Nat.le_of_not_lt hlt] at h
    · intro h
      simp [assert_min_g_max, Nat.not_le.mpr h]
  · intro h
    simp [assert_min_g_max, h]

/-- C4 witness: concrete evaluation at `min = 2, max = 5` and `min = 5, max = 2`. -/
theorem assert_min_g_max_spec_witness :
    (assert_min_g_max 2 5 = Except.ok () ↔ 2 < 5) ∧
    (5 ≥ 2 ∧ assert_min_g_max 5 2 =
      Except.error (OfferError.Std "Min amount must be greater than Max amount.")) :=
  ⟨(assert_min_g_max_spec 2 5).1, by decide, (assert_min_g_max_spec 5 2).2 (by decide)⟩

/-- C10: `assert_ownership a a` succeeds; for `a ≠ b`, `assert_ownership a b`
fails with `Unauthorized` carrying exactly `owner = b` and `caller = a`. -/
theorem assert_ownership_spec (a b : Addr) :
    assert_ownership a a = Except.ok () ∧
    (a ≠ b → assert_ownership a b = Except.error (OfferError.Unauthorized b a)) := by
  constructor
  · simp [assert_ownership]
  · intro h
    simp [assert_ownership, h]

/-- C10 witness: concrete evaluation at `a = "alice"`, `b = "bob"`. -/
theorem assert_ownership_spec_witness :
    assert_ownership "alice" "alice" = Except.ok () ∧
    ("alice" ≠ "bob" ∧
      assert_ownership "alice" "bob" =
        Except.error (OfferError.Unauthorized "bob" "alice")) :=
  ⟨(assert_ownership_spec "alice" "alice").1, by decide,
    (assert_ownership_spec "alice" "bob").2 (by decide)⟩

/-- The numeric value of a big-endian digit string, base 256. -/
def valBE : List Nat → Nat
  | [] => 0
  | x :: xs => x * 256 ^ xs.length + valBE xs

theorem valBE_lt (xs : List Nat) (h : ∀ x ∈ xs, x < 256) :
    valBE xs < 256 ^ xs.length := by
  induction xs with
  | nil => simp [valBE]
  | cons x xs ih =>
    have hx : x < 256 := h x (List.mem_cons_self x xs)
    have hv : valBE xs < 256 ^ xs.length :=
      ih (fun z hz => h z (List.mem_cons_of_mem x hz))
    calc x * 256 ^ xs.length + valBE xs
        < x * 256 ^ xs.length + 256 ^ xs.length := by omega
      _ = (x + 1) * 256 ^ xs.length := by ring
      _ ≤ 256 * 256 ^ xs.length := Nat.mul_le_mul_right _ (by omega)
      _ = 256 ^ (x :: xs).length := by
          rw [List.length_cons, pow_succ]
          ring

/-- On equal-length bounded digit strings, byte-lexicographic order is
numeric order of the big-endian values. -/
theorem lexLtB_iff_valBE :
    ∀ xs ys : List Nat, xs.length = ys.length → (∀ x ∈ xs, x < 256) →
      (∀ y ∈ ys, y < 256) → (lexLtB xs ys = true ↔ valBE xs < valBE ys) := by
  intro xs
  induction xs with
  | nil =>
    intro ys hlen _ _
    cases ys with
    | nil => simp [lexLtB, valBE]
    | cons y ys => simp at hlen
  | cons x xs ih =>
    intro ys hlen hx hy
    cases ys with
    | nil => simp at hlen
    | cons y ys =>
      have hlen2 : xs.length = ys.length := by simpa using hlen
      have hx0 : x < 256 := hx x (List.mem_cons_self x xs)
      have hy0 : y < 256 := hy y (List.mem_cons_self y ys)
      have hx2 : ∀ z ∈ xs, z < 256 := fun z hz => hx z (List.mem_cons_of_mem x hz)
      have hy2 : ∀ z ∈ ys, z < 256 := fun z hz => hy z (List.mem_cons_of_mem y hz)
      have hvx : valBE xs < 256 ^ xs.length := valBE_lt xs hx2
      have hvy : valBE ys < 256 ^ ys.length := valBE_lt ys hy2
      have ihr := ih ys hlen2 hx2 hy2
      simp only [lexLtB, valBE, Bool.or_eq_true, Bool.and_eq_true,
        decide_eq_true_eq, hlen2]
      constructor
      · rintro (hlt | ⟨rfl, hlex⟩)
        · calc x * 256 ^ ys.length + valBE xs
              < x * 256 ^ ys.length + 256 ^ ys.length := by
                rw [hlen2] at hvx
                omega
            _ = (x + 1) * 256 ^ ys.length := by ring
            _ ≤ y * 256 ^ ys.length := Nat.mul_le_mul_right _ (by omega)
            _ ≤ y * 256 ^ ys.length + valBE ys := Nat.le_add_right _ _
        · exact Nat.add_lt_add_left (ihr.mp hlex) _
      · intro hv
        by_cases hlt : x < y
        · exact Or.inl hlt
        · by_cases heq : x = y
          · subst heq
            exact Or.inr ⟨rfl, ihr.mpr (Nat.lt_of_add_lt_add_left hv)⟩
          · exfalso
            have hyx : y < x := by omega
            have hle : x * 256 ^ ys.length + valBE xs ≤
                y * 256 ^ ys.length + valBE ys := Nat.le_of_lt hv
            have hstep : y * 256 ^ ys.length + valBE ys < x * 256 ^ ys.length := by
              calc y * 256 ^ ys.length + valBE ys
                  < y * 256 ^ ys.length + 256 ^ ys.length := by omega
                _ = (y + 1) * 256 ^ ys.length := by ring
                _ ≤ x * 256 ^ ys.length := Nat.mul_le_mul_right _ (by omega)
            omega

theorem to_be_bytes_lt (n : Nat) : ∀ x ∈ to_be_bytes n, x < 256 := by
  intro x hx
  simp only [to_be_bytes, List.mem_cons, List.not_mem_nil, or_false] at hx
  rcases hx with h | h | h | h | h | h | h | h <;> subst h <;>
    exact Nat.mod_lt _ (by norm_num)

theorem valBE_to_be_bytes (n : Nat) (h : n < 2 ^ 64) :
    valBE (to_be_bytes n) = n := by
  simp only [to_be_bytes, valBE, List.length_cons, List.length_nil]
  norm_num only
  omega

/-- On `u64` values, the byte-lexicographic order of the 8-byte big-endian
keys coincides with the numeric order of the ids. -/
theorem lexLtB_to_be_bytes (a b : Nat) (ha : a < 2 ^ 64) (hb : b < 2 ^ 64) :
    lexLtB (to_be_bytes a) (to_be_bytes b) = true ↔ a < b := by
  rw [lexLtB_iff_valBE (to_be_bytes a) (to_be_bytes b) rfl (to_be_bytes_lt a)
      (to_be_bytes_lt b),
    valBE_to_be_bytes a ha, valBE_to_be_bytes b hb]

theorem lexLtB_irrefl (l : List Nat) : lexLtB l l = false := by
  induction l with
  | nil => rfl
  | cons x xs ih => simp [lexLtB, ih]

/-- `find?` after `insertEntry` with the same key always finds the entry just
inserted. -/
theorem find?_insertEntry (k : List Nat) (o : Offer)
    (l : List (List Nat × Offer)) :
    (insertEntry k o l).find? (fun kv => decide (kv.1 = k)) = some (k, o) := by
  induction l with
  | nil => simp [insertEntry]
  | cons kv rest ih =>
    by_cases h1 : lexLtB k kv.1
    · simp [insertEntry, h1]
    · by_cases h2 : k = kv.1
      · simp [insertEntry, h2, lexLtB_irrefl]
      · have h3 : ¬ kv.1 = k := fun h => h2 h.symm
        simp [insertEntry, h1, h2, List.find?, h3, ih]

/-- C6: round-trip — if `OfferModel::store` succeeds, fetching by the stored
offer's id returns exactly the stored offer. -/
theorem store_fetch_roundtrip (st st2 : Storage) (o : Offer)
    (h : OfferModel.store st o = Except.ok st2) :
    OfferModel.fetch st2 o.id = some o := by
  unfold OfferModel.store at h
  cases hf : st.failWrites with
  | true =>
    rw [hf] at h
    simp at h
  | false =>
    rw [hf] at h
    simp only [Bool.false_eq_true, if_false, Except.ok.injEq] at h
    subst h
    simp [OfferModel.fetch, find?_insertEntry]

def rtOffer : Offer :=
  { id := 42, owner := "maker", offer_type := OfferType.Sell,
    fiat_currency := FiatCurrency.USD, min_amount := 10, max_amount := 100,
    state := OfferState.Active }

/-- C6 witness: storing `rtOffer` in the empty store and fetching id 42. -/
theorem store_fetch_roundtrip_witness :
    OfferModel.fetch { entries := [(to_be_bytes 42, rtOffer)], failWrites := false }
      rtOffer.id = some rtOffer :=
  store_fetch_roundtrip { entries := [], failWrites := false } _ rtOffer (by rfl)

/-- C7: the by-id lookup has no recoverable missing-key result — it returns
`none` (the `.unwrap()` panic of the default-then-unwrap, a fatal failure,
never a `NotFound` error value) exactly when no entry carries the id's key;
hence whenever the id is present the failure branch is unreachable and a
stored offer is returned. -/
theorem fetch_missing_is_fatal (st : Storage) (id : Nat) :
    (OfferModel.fetch st id = none ↔
      ∀ kv ∈ st.entries, kv.1 ≠ to_be_bytes id) ∧
    ((∃ kv ∈ st.entries, kv.1 = to_be_bytes id) →
      ∃ o, OfferModel.fetch st id = some o ∧ (to_be_bytes id, o) ∈ st.entries) := by
  constructor
  · simp only [OfferModel.fetch, Option.map_eq_none', List.find?_eq_none,
      decide_eq_true_eq, ne_eq]
  · intro h
    rcases h with ⟨kv, hmem, hkey⟩
    cases hfind : st.entries.find? (fun kv2 => decide (kv2.1 = to_be_bytes id)) with
    | none =>
      exfalso
      have hnone := List.find?_eq_none.mp hfind kv hmem
      simp [hkey] at hnone
    | some kv2 =>
      have hm := List.find?_some hfind
      have hmem2 := List.mem_of_find?_eq_some hfind
      simp only [decide_eq_true_eq] at hm
      refine ⟨kv2.2, by simp [OfferModel.fetch, hfind], ?_⟩
      rw [← hm]
      exact hmem2

/-- C7 witness: id 7 is absent from a concrete one-entry store, so the
lookup hits the fatal `none` branch; id 42 is present, so it returns the
stored offer. -/
theorem fetch_missing_is_fatal_witness :
    OfferModel.fetch { entries := [(to_be_bytes 42, rtOffer)], failWrites := false } 7 = none ∧
    (∃ o, OfferModel.fetch { entries := [(to_be_bytes 42, rtOffer)], failWrites := false } 42 =
        some o ∧
      (to_be_bytes 42, o) ∈ [(to_be_bytes 42, rtOffer)]) :=
  ⟨(fetch_missing_is_fatal { entries := [(to_be_bytes 42, rtOffer)], failWrites := false } 7).1.mpr
      (by decide),
    (fetch_missing_is_fatal { entries := [(to_be_bytes 42, rtOffer)], failWrites := false } 42).2
      ⟨(to_be_bytes 42, rtOffer), by decide, rfl⟩⟩

/-- C2: the Offer state machine is strict and asymmetric.  With a working
store handle: `activate` succeeds, sets the state to `Active` and persists
exactly when the state is `Paused`, and on an `Active` offer fails with
`InvalidStateChange{from: Active, to: Active}` leaving the model untouched;
`pause` is the mirror image; and from `Active`, `pause` then `activate`
returns the very same offer, `Active` again. -/
theorem offer_state_machine (m : OfferModel) (hf : m.storage.failWrites = false) :
    (m.offer.state = OfferState.Paused →
      (m.activate).1 = Except.ok { m.offer with state := OfferState.Active } ∧
      (m.activate).2.offer = { m.offer with state := OfferState.Active } ∧
      OfferModel.fetch (m.activate).2.storage m.offer.id =
        some { m.offer with state := OfferState.Active }) ∧
    (m.offer.state = OfferState.Active →
      m.activate =
        (Except.error (OfferError.InvalidStateChange OfferState.Active OfferState.Active), m)) ∧
    (m.offer.state = OfferState.Active →
      (m.pause).1 = Except.ok { m.offer with state := OfferState.Paused } ∧
      (m.pause).2.offer = { m.offer with state := OfferState.Paused } ∧
      OfferModel.fetch (m.pause).2.storage m.offer.id =
        some { m.offer with state := OfferState.Paused }) ∧
    (m.offer.state = OfferState.Paused →
      m.pause =
        (Except.error (OfferError.InvalidStateChange OfferState.Paused OfferState.Paused), m)) ∧
    (m.offer.state = OfferState.Active →
      (((m.pause).2).activate).1 = Except.ok m.offer ∧
      (((m.pause).2).activate).2.offer = m.offer ∧
      (((m.pause).2).activate).2.offer.state = OfferState.Active) := by
  obtain ⟨o, st⟩ := m
  obtain ⟨i, ow, ot, fc, mn, mx, s⟩ := o
  simp only at hf
  refine ⟨?_, ?_, ?_, ?_, ?_⟩
  · intro hs
    simp only at hs
    subst hs
    refine ⟨rfl, rfl, ?_⟩
    simp [OfferModel.activate, OfferModel.storeDiscard, OfferModel.store, hf,
      OfferModel.fetch, find?_insertEntry]
  · intro hs
    simp only at hs
    subst hs
    rfl
  · intro hs
    simp only at hs
    subst hs
    refine ⟨rfl, rfl, ?_⟩
    simp [OfferModel.pause, OfferModel.storeDiscard, OfferModel.store, hf,
      OfferModel.fetch, find?_insertEntry]
  · intro hs
    simp only at hs
    subst hs
    rfl
  · intro hs
    simp only at hs
    subst hs
    refine ⟨?_, ?_, ?_⟩ <;>
      simp [OfferModel.pause, OfferModel.activate, OfferModel.storeDiscard,
        OfferModel.store, hf]

def smOffer : Offer :=
  { id := 7, owner := "maker", offer_type := OfferType.Buy,
    fiat_currency := FiatCurrency.EUR, min_amount := 5, max_amount := 50,
    state := OfferState.Active }

def smModel : OfferModel :=
  { offer := smOffer, storage := { entries := [(to_be_bytes 7, smOffer)], failWrites := false } }

/-- C2 witness: a concrete `Active` model — `pause` succeeds and `activate`
on it fails, and `pause` then `activate` restores the offer. -/
theorem offer_state_machine_witness :
    smModel.storage.failWrites = false ∧
    smModel.offer.state = OfferState.Active ∧
    smModel.activate =
      (Except.error (OfferError.InvalidStateChange OfferState.Active OfferState.Active),
        smModel) ∧
    (smModel.pause).1 = Except.ok { smModel.offer with state := OfferState.Paused } ∧
    (((smModel.pause).2).activate).1 = Except.ok smModel.offer :=
  ⟨rfl, rfl,
    (offer_state_machine smModel rfl).2.1 rfl,
    ((offer_state_machine smModel rfl).2.2.1 rfl).1,
    ((offer_state_machine smModel rfl).2.2.2.2 rfl).1⟩

/-- C5: `update` leaves `id`, `owner` and `state` unchanged, overwrites
`offer_type`, `fiat_currency`, `min_amount` and `max_amount` with the message
fields, and (with a working store handle) persists the result under the
offer's key. -/
theorem update_frame (m : OfferModel) (msg : OfferMsg)
    (hf : m.storage.failWrites = false) :
    (m.update msg).1.id = m.offer.id ∧
    (m.update msg).1.owner = m.offer.owner ∧
    (m.update msg).1.state = m.offer.state ∧
    (m.update msg).1.offer_type = msg.offer_type ∧
    (m.update msg).1.fiat_currency = msg.fiat_currency ∧
    (m.update msg).1.min_amount = msg.min_amount ∧
    (m.update msg).1.max_amount = msg.max_amount ∧
    (m.update msg).2.offer = (m.update msg).1 ∧
    OfferModel.fetch (m.update msg).2.storage m.offer.id = some (m.update msg).1 := by
  refine ⟨rfl, rfl, rfl, rfl, rfl, rfl, rfl, rfl, ?_⟩
  simp [OfferModel.update, OfferModel.storeDiscard, OfferModel.store, hf,
    OfferModel.fetch, find?_insertEntry]

def updMsg : OfferMsg :=
  { offer_type := OfferType.Sell, fiat_currency := FiatCurrency.COP,
    min_amount := 1, max_amount := 9 }

/-- C5 witness: concrete evaluation of `update` on `smModel` with `updMsg`. -/
theorem update_frame_witness :
    smModel.storage.failWrites = false ∧
    (smModel.update updMsg).1.id = smModel.offer.id ∧
    (smModel.update updMsg).1.state = smModel.offer.state ∧
    (smModel.update updMsg).1.fiat_currency = updMsg.fiat_currency ∧
    OfferModel.fetch (smModel.update updMsg).2.storage smModel.offer.id =
      some (smModel.update updMsg).1 :=
  ⟨rfl, (update_frame smModel updMsg rfl).1,
    (update_frame smModel updMsg rfl).2.2.1,
    (update_frame smModel updMsg rfl).2.2.2.2.1,
    (update_frame smModel updMsg rfl).2.2.2.2.2.2.2.2⟩

def failStore : Storage := { entries := [], failWrites := true }

def c8Offer : Offer :=
  { id := 3, owner := "maker", offer_type := OfferType.Buy,
    fiat_currency := FiatCurrency.USD, min_amount := 2, max_amount := 20,
    state := OfferState.Active }

/-- C8 counterexample: on a store whose write fails, `OfferModel::store`
reports an error — yet `create` on the very same store and offer returns the
offer as if persisted (its signature has no error channel), nothing is
written, and no failure reaches the caller.  The claim "if the underlying
store write fails, the operation reports that failure to the caller rather
than returning the Offer as if persisted" is therefore false. -/
theorem create_swallows_store_failure :
    OfferModel.store failStore c8Offer = Except.error "storage failure" ∧
    (OfferModel.create failStore c8Offer).offer = c8Offer ∧
    (OfferModel.create failStore c8Offer).storage.entries = [] ∧
    OfferModel.fetch (OfferModel.create failStore c8Offer).storage c8Offer.id = none := by
  refine ⟨rfl, rfl, rfl, rfl⟩

/-- C8 amended: every mutating registry operation returns either the updated
`Offer` or a typed state-machine error, but independently of whether the
underlying store write fails: `create` and `update` always return the offer
built from their inputs, and `activate`/`pause` return the updated offer or
an `InvalidStateChange` error — a failed write is silently discarded, never
reported. -/
theorem mutating_ops_never_report_storage_errors (st : Storage) (o : Offer)
    (m : OfferModel) (msg : OfferMsg) :
    (OfferModel.create st o).offer = o ∧
    (m.update msg).1 =
      { m.offer with
        offer_type := msg.offer_type,
        fiat_currency := msg.fiat_currency,
        min_amount := msg.min_amount,
        max_amount := msg.max_amount } ∧
    ((m.activate).1 = Except.ok { m.offer with state := OfferState.Active } ∨
      (m.activate).1 =
        Except.error (OfferError.InvalidStateChange OfferState.Active OfferState.Active)) ∧
    ((m.pause).1 = Except.ok { m.offer with state := OfferState.Paused } ∨
      (m.pause).1 =
        Except.error (OfferError.InvalidStateChange OfferState.Paused OfferState.Paused)) := by
  refine ⟨rfl, rfl, ?_, ?_⟩
  · cases hs : m.offer.state with
    | Paused =>
      left
      simp [OfferModel.activate, hs]
    | Active =>
      right
      simp [OfferModel.activate, hs]
  · cases hs : m.offer.state with
    | Active =>
      left
      simp [OfferModel.pause, hs]
    | Paused =>
      right
      simp [OfferModel.pause, hs]

/-- An offer with a given id and currency, used by the pagination claims. -/
def pagOffer (i : Nat) (fc : FiatCurrency) : Offer :=
  { id := i, owner := "maker", offer_type := OfferType.Sell,
    fiat_currency := fc, min_amount := 10, max_amount := 100,
    state := OfferState.Active }

/-- C1: in a store holding offers with ids 1..5 of which only id 5 carries
currency `fc`, the paged query with cursor `key 0` and limit 3 returns the
empty page — the first 3 raw entries are taken before the currency filter and
all filtered out — even though the full (unpaged) query finds the match at
id 5. -/
theorem fetch_paged_short_page (fc : FiatCurrency) (o1 o2 o3 o4 o5 : Offer)
    (h1 : o1.id = 1) (h2 : o2.id = 2) (h3 : o3.id = 3) (h4 : o4.id = 4)
    (h5 : o5.id = 5) (fl : Bool)
    (hc1 : o1.fiat_currency ≠ fc) (hc2 : o2.fiat_currency ≠ fc)
    (hc3 : o3.fiat_currency ≠ fc) (hc4 : o4.fiat_currency ≠ fc)
    (hc5 : o5.fiat_currency = fc) :
    OfferModel.fetch_paged
      { entries := [(to_be_bytes o1.id, o1), (to_be_bytes o2.id, o2),
          (to_be_bytes o3.id, o3), (to_be_bytes o4.id, o4), (to_be_bytes o5.id, o5)],
        failWrites := fl } fc (to_be_bytes 0) 3 = [] ∧
    OfferModel.query_all_offers
      { entries := [(to_be_bytes o1.id, o1), (to_be_bytes o2.id, o2),
          (to_be_bytes o3.id, o3), (to_be_bytes o4.id, o4), (to_be_bytes o5.id, o5)],
        failWrites := fl } fc = [o5] := by
  rw [h1, h2, h3, h4, h5]
  constructor
  · simp only [OfferModel.fetch_paged]
    norm_num [to_be_bytes, lexLtB, List.filter, List.take, hc1, hc2, hc3]
  · simp only [OfferModel.query_all_offers]
    norm_num [List.filter, hc1, hc2, hc3, hc4, hc5]

/-- C1 witness: ids 1..4 in EUR, id 5 in USD; the USD page at cursor `key 0`
with limit 3 is empty while the full USD query returns the id-5 offer. -/
theorem fetch_paged_short_page_witness :
    OfferModel.fetch_paged
      { entries := [(to_be_bytes (pagOffer 1 FiatCurrency.EUR).id, pagOffer 1 FiatCurrency.EUR),
          (to_be_bytes (pagOffer 2 FiatCurrency.EUR).id, pagOffer 2 FiatCurrency.EUR),
          (to_be_bytes (pagOffer 3 FiatCurrency.EUR).id, pagOffer 3 FiatCurrency.EUR),
          (to_be_bytes (pagOffer 4 FiatCurrency.EUR).id, pagOffer 4 FiatCurrency.EUR),
          (to_be_bytes (pagOffer 5 FiatCurrency.USD).id, pagOffer 5 FiatCurrency.USD)],
        failWrites := false } FiatCurrency.USD (to_be_bytes 0) 3 = [] ∧
    OfferModel.query_all_offers
      { entries := [(to_be_bytes (pagOffer 1 FiatCurrency.EUR).id, pagOffer 1 FiatCurrency.EUR),
          (to_be_bytes (pagOffer 2 FiatCurrency.EUR).id, pagOffer 2 FiatCurrency.EUR),
          (to_be_bytes (pagOffer 3 FiatCurrency.EUR).id, pagOffer 3 FiatCurrency.EUR),
          (to_be_bytes (pagOffer 4 FiatCurrency.EUR).id, pagOffer 4 FiatCurrency.EUR),
          (to_be_bytes (pagOffer 5 FiatCurrency.USD).id, pagOffer 5 FiatCurrency.USD)],
        failWrites := false } FiatCurrency.USD = [pagOffer 5 FiatCurrency.USD] :=
  fetch_paged_short_page FiatCurrency.USD _ _ _ _ _ rfl rfl rfl rfl rfl false
    (by decide) (by decide) (by decide) (by decide) (by decide)

/-- C3: in a store holding offers with ids 1..10 all of currency `fc`, the
paged query with cursor `key 0` and limit 3 returns exactly ids 1,2,3 in
ascending order, and the follow-up call with cursor `key 3` (the raw key of
the last returned id, an exclusive lower bound) returns exactly ids 4,5,6. -/
theorem fetch_paged_two_pages (fc : FiatCurrency)
    (o1 o2 o3 o4 o5 o6 o7 o8 o9 o10 : Offer)
    (h1 : o1.id = 1) (h2 : o2.id = 2) (h3 : o3.id = 3) (h4 : o4.id = 4)
    (h5 : o5.id = 5) (h6 : o6.id = 6) (h7 : o7.id = 7) (h8 : o8.id = 8)
    (h9 : o9.id = 9) (h10 : o10.id = 10) (fl : Bool)
    (hc1 : o1.fiat_currency = fc) (hc2 : o2.fiat_currency = fc)
    (hc3 : o3.fiat_currency = fc) (hc4 : o4.fiat_currency = fc)
    (hc5 : o5.fiat_currency = fc) (hc6 : o6.fiat_currency = fc) :
    OfferModel.fetch_paged
      { entries := [(to_be_bytes o1.id, o1), (to_be_bytes o2.id, o2),
          (to_be_bytes o3.id, o3), (to_be_bytes o4.id, o4), (to_be_bytes o5.id, o5),
          (to_be_bytes o6.id, o6), (to_be_bytes o7.id, o7), (to_be_bytes o8.id, o8),
          (to_be_bytes o9.id, o9), (to_be_bytes o10.id, o10)],
        failWrites := fl } fc (to_be_bytes 0) 3 = [o1, o2, o3] ∧
    OfferModel.fetch_paged
      { entries := [(to_be_bytes o1.id, o1), (to_be_bytes o2.id, o2),
          (to_be_bytes o3.id, o3), (to_be_bytes o4.id, o4), (to_be_bytes o5.id, o5),
          (to_be_bytes o6.id, o6), (to_be_bytes o7.id, o7), (to_be_bytes o8.id, o8),
          (to_be_bytes o9.id, o9), (to_be_bytes o10.id, o10)],
        failWrites := fl } fc (to_be_bytes 3) 3 = [o4, o5, o6] := by
  rw [h1, h2, h3, h4, h5, h6, h7, h8, h9, h10]
  constructor
  · simp only [OfferModel.fetch_paged]
    norm_num [to_be_bytes, lexLtB, List.filter, List.take, hc1, hc2, hc3]
  · simp only [OfferModel.fetch_paged]
    norm_num [to_be_bytes, lexLtB, List.filter, List.take, hc4, hc5, hc6]

/-- C3 witness: ten concrete COP offers; the first page is ids 1,2,3 and the
page after cursor `key 3` is ids 4,5,6. -/
theorem fetch_paged_two_pages_witness :
    OfferModel.fetch_paged
      { entries := [(to_be_bytes (pagOffer 1 FiatCurrency.COP).id, pagOffer 1 FiatCurrency.COP),
          (to_be_bytes (pagOffer 2 FiatCurrency.COP).id, pagOffer 2 FiatCurrency.COP),
          (to_be_bytes (pagOffer 3 FiatCurrency.COP).id, pagOffer 3 FiatCurrency.COP),
          (to_be_bytes (pagOffer 4 FiatCurrency.COP).id, pagOffer 4 FiatCurrency.COP),
          (to_be_bytes (pagOffer 5 FiatCurrency.COP).id, pagOffer 5 FiatCurrency.COP),
          (to_be_bytes (pagOffer 6 FiatCurrency.COP).id, pagOffer 6 FiatCurrency.COP),
          (to_be_bytes (pagOffer 7 FiatCurrency.COP).id, pagOffer 7 FiatCurrency.COP),
          (to_be_bytes (pagOffer 8 FiatCurrency.COP).id, pagOffer 8 FiatCurrency.COP),
          (to_be_bytes (pagOffer 9 FiatCurrency.COP).id, pagOffer 9 FiatCurrency.COP),
          (to_be_bytes (pagOffer 10 FiatCurrency.COP).id, pagOffer 10 FiatCurrency.COP)],
        failWrites := false } FiatCurrency.COP (to_be_bytes 0) 3 =
      [pagOffer 1 FiatCurrency.COP, pagOffer 2 FiatCurrency.COP, pagOffer 3 FiatCurrency.COP] ∧
    OfferModel.fetch_paged
      { entries := [(to_be_bytes (pagOffer 1 FiatCurrency.COP).id, pagOffer 1 FiatCurrency.COP),
          (to_be_bytes (pagOffer 2 FiatCurrency.COP).id, pagOffer 2 FiatCurrency.COP),
          (to_be_bytes (pagOffer 3 FiatCurrency.COP).id, pagOffer 3 FiatCurrency.COP),
          (to_be_bytes (pagOffer 4 FiatCurrency.COP).id, pagOffer 4 FiatCurrency.COP),
          (to_be_bytes (pagOffer 5 FiatCurrency.COP).id, pagOffer 5 FiatCurrency.COP),
          (to_be_bytes (pagOffer 6 FiatCurrency.COP).id, pagOffer 6 FiatCurrency.COP),
          (to_be_bytes (pagOffer 7 FiatCurrency.COP).id, pagOffer 7 FiatCurrency.COP),
          (to_be_bytes (pagOffer 8 FiatCurrency.COP).id, pagOffer 8 FiatCurrency.COP),
          (to_be_bytes (pagOffer 9 FiatCurrency.COP).id, pagOffer 9 FiatCurrency.COP),
          (to_be_bytes (pagOffer 10 FiatCurrency.COP).id, pagOffer 10 FiatCurrency.COP)],
        failWrites := false } FiatCurrency.COP (to_be_bytes 3) 3 =
      [pagOffer 4 FiatCurrency.COP, pagOffer 5 FiatCurrency.COP, pagOffer 6 FiatCurrency.COP] :=
  fetch_paged_two_pages FiatCurrency.COP _ _ _ _ _ _ _ _ _ _
    rfl rfl rfl rfl rfl rfl rfl rfl rfl rfl false
    rfl rfl rfl rfl rfl rfl

/-- C9: on any well-formed store state, `query_all_offers` returns its
result in strictly ascending id order (the order induced by the 8-byte
big-endian keys) and contains exactly the stored offers whose currency is
the requested one. -/
theorem query_all_offers_spec (st : Storage) (fc : FiatCurrency) (h : st.WF) :
    (OfferModel.query_all_offers st fc).Pairwise (fun a b => a.id < b.id) ∧
    ∀ o : Offer, o ∈ OfferModel.query_all_offers st fc ↔
      ((to_be_bytes o.id, o) ∈ st.entries ∧ o.fiat_currency = fc) := by
  obtain ⟨hsort, hkeys⟩ := h
  constructor
  · have h1 : st.entries.Pairwise (fun a b => a.2.id < b.2.id) := by
      refine hsort.imp_of_mem ?_
      intro a b ha hb hab
      have hka := hkeys a ha
      have hkb := hkeys b hb
      rw [hka.1, hkb.1] at hab
      exact (lexLtB_to_be_bytes _ _ hka.2 hkb.2).mp hab
    have h2 : (st.entries.map (fun kv => kv.2)).Pairwise (fun a b => a.id < b.id) :=
      h1.map _ (fun a b hab => hab)
    exact h2.filter _
  · intro o
    simp only [OfferModel.query_all_offers, List.mem_filter, List.mem_map,
      decide_eq_true_eq]
    constructor
    · rintro ⟨⟨kv, hkv, rfl⟩, hc⟩
      refine ⟨?_, hc⟩
      have hk := (hkeys kv hkv).1
      rw [← hk]
      exact hkv
    · rintro ⟨hmem, hc⟩
      exact ⟨⟨(to_be_bytes o.id, o), hmem, rfl⟩, hc⟩

def wfStore : Storage :=
  { entries := [(to_be_bytes 1, pagOffer 1 FiatCurrency.USD),
      (to_be_bytes 2, pagOffer 2 FiatCurrency.EUR),
      (to_be_bytes 3, pagOffer 3 FiatCurrency.USD)],
    failWrites := false }

/-- C9 witness: a concrete well-formed three-entry store; the USD query is
ascending by id and membership matches the stored USD offers. -/
theorem query_all_offers_spec_witness :
    (OfferModel.query_all_offers wfStore FiatCurrency.USD).Pairwise
      (fun a b => a.id < b.id) ∧
    (pagOffer 1 FiatCurrency.USD ∈ OfferModel.query_all_offers wfStore FiatCurrency.USD ↔
      ((to_be_bytes (pagOffer 1 FiatCurrency.USD).id, pagOffer 1 FiatCurrency.USD) ∈
          wfStore.entries ∧
        (pagOffer 1 FiatCurrency.USD).fiat_currency = FiatCurrency.USD)) :=
  ⟨(query_all_offers_spec wfStore FiatCurrency.USD ⟨by decide, by decide⟩).1,
    (query_all_offers_spec wfStore FiatCurrency.USD ⟨by decide, by decide⟩).2 _⟩
